import Mathlib

/-!
# Verification of the step-driven AST interpreter in `src/ui/visualizer.py`

This file is a shallow embedding of the core of `UIVisualizer`
(`src/ui/visualizer.py`): the expression evaluator
(`_evaluate_expression`, `_execute_function_directly`), the stepping
engine (`_next_step`, `_execute_assignment`, `_execute_call`,
`_execute_print`, `_handle_return`, `_update_variable`), the
tree-detection predicate (`_is_tree_structure`, the second definition in
the class body, which in Python overrides the first), and `stop`.

Modelling conventions:
* Python runtime values are the inductive `Value`.  Floats, arbitrary
  host objects, classes and generators are not modelled; the constructs
  of the source that would need them (true division `/`, `str()`/`int()`
  coercions, class instantiation, `input()`, attribute method calls) are
  mapped to the explicit error `Err.notModelled`.  No claim below
  exercises any of them.
* The call stack is a `List` whose HEAD is the innermost (top) frame;
  this mirrors Python's `self.call_stack[-1]` / `reversed(self.call_stack)`
  access pattern.  The module frame is the last element.
* Host exceptions are the `Except Err` monad.  Recursion through
  user-defined function calls is bounded by an explicit `fuel` argument
  (`Err.fuelExhausted` when it runs out); every theorem that needs
  evaluation supplies enough fuel.
* Presentation-adapter calls (widget creation/update, scope open/close,
  print output, line highlighting) are modelled as an `Event` trace;
  the text contents of widget labels, which the source pulls from the
  Qt editor, are not modelled.  Runtime-error diagnostics (the
  `print("Runtime Error on line ...")` in `_next_step`) are a separate
  `Option Err` channel of each step, as in the source they go to the
  console, not the canvas.
-/

/-- Python runtime values manipulated by the visualizer
(scalars, strings, lists, dicts).  Dict entries keep insertion order,
as CPython dicts do. -/
inductive Value where
  | none : Value
  | int : Int → Value
  | bool : Bool → Value
  | str : String → Value
  | list : List Value → Value
  | dict : List (Value × Value) → Value
deriving Repr

mutual

/-- Structural equality on values: the embedding of Python `==` for the
modelled value types (used by the `ast.Eq`/`ast.NotEq` comparison
lambdas and by dict-key membership). -/
def valueBeq : Value → Value → Bool
  | .none, .none => true
  | .int a, .int b => a == b
  | .bool a, .bool b => a == b
  | .str a, .str b => a == b
  | .list a, .list b => valueListBeq a b
  | .dict a, .dict b => valuePairsBeq a b
  | _, _ => false

def valueListBeq : List Value → List Value → Bool
  | [], [] => true
  | x :: xs, y :: ys => valueBeq x y && valueListBeq xs ys
  | _, _ => false

def valuePairsBeq : List (Value × Value) → List (Value × Value) → Bool
  | [], [] => true
  | (k, v) :: xs, (l, w) :: ys => valueBeq k l && valueBeq v w && valuePairsBeq xs ys
  | _, _ => false

end

instance : BEq Value := ⟨valueBeq⟩

/-- Python truthiness (`bool(x)`) for the modelled values: `None`,
`False`, `0`, `""`, `[]` and `{}` are falsy, everything else truthy. -/
def truthy : Value → Bool
  | .none => false
  | .int n => n != 0
  | .bool b => b
  | .str s => s != ""
  | .list xs => !xs.isEmpty
  | .dict ps => !ps.isEmpty

/-- The failure modes of the interpreter, mirroring the Python
exceptions that `_next_step`'s `except Exception` clause can catch. -/
inductive Err where
  | nameError : String → Err            -- NameError (undefined name / unknown function)
  | typeError : String → Err            -- TypeError-kind (unsupported node, bad operands)
  | attributeError : Err                -- AttributeError (e.g. `node.target.id` on a Subscript)
  | zeroDivision : Err                  -- ZeroDivisionError
  | indexError : Err                    -- IndexError / KeyError on subscripts
  | notModelled : String → Err          -- deliberate model boundary, never reached by a claim
  | fuelExhausted : Err                 -- recursion bound of the embedding itself
deriving Repr, DecidableEq

/-- Binary arithmetic operator kinds: exactly the keys of the source's
`op_map` (`ast.Add`..`ast.Pow`). -/
inductive BinOpKind where
  | add | sub | mul | div | floordiv | mod | pow
deriving Repr, DecidableEq

/-- Comparison operator kinds, the keys of the `ast.Compare` `op_map`. -/
inductive CmpOpKind where
  | eq | ne | lt | le | gt | ge | isOp | isNot | inOp | notIn
deriving Repr, DecidableEq

/-- Unary operator kinds (`ast.UAdd`, `ast.USub`, `ast.Not`). -/
inductive UnaryOpKind where
  | pos | neg | notOp
deriving Repr, DecidableEq

/-- `op_map[type(node.op)](left, right)` of `_evaluate_expression`'s
`ast.BinOp` branch, on the modelled values.  Host int arithmetic is
embedded with Python semantics: `//` and `%` floor (Int.fdiv/Int.fmod),
division by zero raises, `+` also concatenates strings and lists.
True division `/` always produces a host float and is therefore at the
model boundary. -/
def applyBinOp : BinOpKind → Value → Value → Except Err Value
  | .add, .int a, .int b => .ok (.int (a + b))
  | .add, .str a, .str b => .ok (.str (a ++ b))
  | .add, .list a, .list b => .ok (.list (a ++ b))
  | .sub, .int a, .int b => .ok (.int (a - b))
  | .mul, .int a, .int b => .ok (.int (a * b))
  | .div, .int _, .int _ => .error (.notModelled "float division")
  | .floordiv, .int a, .int b =>
      if b == 0 then .error .zeroDivision else .ok (.int (Int.fdiv a b))
  | .mod, .int a, .int b =>
      if b == 0 then .error .zeroDivision else .ok (.int (Int.fmod a b))
  | .pow, .int a, .int b =>
      if b < 0 then .error (.notModelled "negative exponent")
      else .ok (.int (a ^ b.toNat))
  | _, _, _ => .error (.typeError "unsupported operand types")

/-- The `ast.UnaryOp` `op_map`: `+x`, `-x`, `not x` (the latter follows
host truthiness). -/
def applyUnaryOp : UnaryOpKind → Value → Except Err Value
  | .pos, .int n => .ok (.int n)
  | .neg, .int n => .ok (.int (-n))
  | .notOp, v => .ok (.bool (!truthy v))
  | _, _ => .error (.typeError "bad operand type for unary operator")

/-- The `ast.Compare` `op_map` applied to the single (first) op/operand
pair, as in the source.  Ordering is modelled on ints; `is`, `in` and
their negations are at the model boundary (no claim uses them). -/
def applyCmpOp : CmpOpKind → Value → Value → Except Err Value
  | .eq, a, b => .ok (.bool (valueBeq a b))
  | .ne, a, b => .ok (.bool (!valueBeq a b))
  | .lt, .int a, .int b => .ok (.bool (a < b))
  | .le, .int a, .int b => .ok (.bool (a ≤ b))
  | .gt, .int a, .int b => .ok (.bool (a > b))
  | .ge, .int a, .int b => .ok (.bool (a ≥ b))
  | .isOp, _, _ => .error (.notModelled "is")
  | .isNot, _, _ => .error (.notModelled "is not")
  | .inOp, _, _ => .error (.notModelled "in")
  | .notIn, _, _ => .error (.notModelled "not in")
  | _, _, _ => .error (.typeError "unsupported comparison operands")

/-- Assignment / subscript targets (`ast.Name`, `ast.Subscript`,
`ast.Attribute`).  The stepping engine only ever binds `name` targets. -/
inductive Target where
  | name : String → Target
  | subscript : Target                  -- e.g. `a[0] = ...` (payload irrelevant to the engine)
  | attr : Target                       -- an `ast.Attribute` target, e.g. `o.x = ...`
deriving Repr, DecidableEq

mutual

/-- The expression AST fragment the evaluator supports, plus `boolOp`:
`ast.BoolOp` appears in user programs (`a and b` / `a or b`) but has NO
case in `_evaluate_expression`, so carrying it in the AST is what lets
the model express the source's "Unsupported expression type" failure.
F-strings, attribute access and class instantiation are not modelled
(no claim touches them). -/
inductive Expr where
  | const : Value → Expr
  | nameRef : String → Expr
  | boolOp : Bool → List Expr → Expr     -- true ↦ `and`, false ↦ `or`
  | binOp : Expr → BinOpKind → Expr → Expr
  | unaryOp : UnaryOpKind → Expr → Expr
  | compare : Expr → CmpOpKind → Expr → Expr
  | call : String → List Expr → Expr     -- call with an `ast.Name` func
  | listLit : List Expr → Expr
  | subscriptExpr : Expr → Expr → Expr
deriving Repr

/-- The statement AST fragment of the stepping engine's dispatch chain.
`whileStmt`/`forStmt` carry a numeric identity standing for Python's
`id(node)`, the key of the per-frame `iterators` dict; re-splicing the
node keeps the same identity, exactly as re-inserting the same object
does in the source. -/
inductive Stmt where
  | assign : List Target → Expr → Nat → Stmt           -- targets, value, lineno
  | augAssign : Target → BinOpKind → Expr → Nat → Stmt
  | exprStmt : Expr → Nat → Stmt
  | ret : Option Expr → Nat → Stmt
  | ifStmt : Expr → List Stmt → List Stmt → Nat → Stmt  -- test, body, orelse
  | whileStmt : Nat → Expr → List Stmt → Nat → Stmt     -- id, test, body
  | forStmt : Nat → String → Expr → List Stmt → Nat → Stmt -- id, target name, iterable, body
deriving Repr

end

/-- `node.lineno` of a statement. -/
def Stmt.line : Stmt → Nat
  | .assign _ _ ln => ln
  | .augAssign _ _ _ ln => ln
  | .exprStmt _ ln => ln
  | .ret _ ln => ln
  | .ifStmt _ _ _ ln => ln
  | .whileStmt _ _ _ ln => ln
  | .forStmt _ _ _ _ ln => ln

/-- A user-defined function as stored in `self.functions` by the
`FunctionFinder` visitor: name, positional parameter names, body. -/
structure FuncDef where
  name : String
  params : List String
  body : List Stmt
deriving Repr

/-- What expression evaluation sees of one call frame: its name and its
local bindings (`frame.name`, `frame.locals`).  `_evaluate_expression`
and `_execute_function_directly` read nothing else of a frame. -/
structure ScopeView where
  name : String
  locals : List (String × Value)
deriving Repr

/-- Python-dict style lookup in a frame's `locals`
(`node.id in frame.locals` / `frame.locals[node.id]`). -/
def lookupLocal : List (String × Value) → String → Option Value
  | [], _ => Option.none
  | (k, v) :: rest, id => if k == id then some v else lookupLocal rest id

/-- Python-dict style store `locals[name] = value`: replace an existing
binding in place, else append (insertion order preserved). -/
def setLocal : List (String × Value) → String → Value → List (String × Value)
  | [], id, v => [(id, v)]
  | (k, w) :: rest, id, v =>
      if k == id then (k, v) :: rest else (k, w) :: setLocal rest id v

/-- The name-resolution walk of `_evaluate_expression`'s `ast.Name`
case: `for frame in reversed(self.call_stack): if node.id in
frame.locals: return frame.locals[node.id]`.  The list is ordered
innermost first, so this is a head-to-tail walk with the first match
winning. -/
def lookupChain : List ScopeView → String → Option Value
  | [], _ => Option.none
  | fr :: rest, id =>
      match lookupLocal fr.locals id with
      | some v => some v
      | Option.none => lookupChain rest id

/-- `charsStartWith a b`: the character list `a` is an initial segment
of `b` (helper for the substring test below). -/
def charsStartWith : List Char → List Char → Bool
  | [], _ => true
  | _ :: _, [] => false
  | a :: as, b :: bs => a == b && charsStartWith as bs

/-- `charsHaveSub sub l`: `sub` occurs contiguously inside `l`. -/
def charsHaveSub (sub : List Char) : List Char → Bool
  | [] => sub.isEmpty
  | c :: rest => charsStartWith sub (c :: rest) || charsHaveSub sub rest

/-- Python's `needle in hay` on strings, used by the recursion-depth
counts `len([f for f in self.call_stack if func_def.name in f.name])`. -/
def strContainsStr (hay needle : String) : Bool :=
  charsHaveSub needle.data hay.data

/-- The recursion-depth count of `_execute_function_directly` and
`_execute_call`: how many active frames have the function's name as a
substring of their frame name. -/
def countFramesMatching (stack : List ScopeView) (fname : String) : Nat :=
  (stack.filter (fun sv => strContainsStr sv.name fname)).length

/-- `MAX_RECURSION_DEPTH` of `_execute_function_directly`. -/
def maxRecursionDepth : Nat := 50

/-- Lookup in the `self.functions` registry. -/
def lookupFn : List (String × FuncDef) → String → Option FuncDef
  | [], _ => Option.none
  | (k, fd) :: rest, f => if k == f then some fd else lookupFn rest f

/-- The names the evaluator's builtin branch special-cases before user
functions are consulted. -/
def builtinNames : List String :=
  ["len", "str", "int", "float", "bool", "list", "dict", "tuple", "range", "print"]

/-- `range(a, b)` materialized to a list of ints (step 1). -/
def rangeList (a b : Int) : List Value :=
  (List.range (b - a).toNat).map (fun i => .int (a + i))

/-- The builtin branch of `_evaluate_expression`'s call case
(`eval(func_name)(*args)`).  `len` and `range` are given their host
semantics; `print` prints to the console (no canvas event) and returns
`None`; the remaining coercion builtins are at the model boundary. -/
def evalBuiltin : String → List Value → Except Err Value
  | "len", [.list xs] => .ok (.int xs.length)
  | "len", [.str s] => .ok (.int s.length)
  | "len", [.dict ps] => .ok (.int ps.length)
  | "len", _ => .error (.typeError "len")
  | "range", [.int b] => .ok (.list (rangeList 0 b))
  | "range", [.int a, .int b] => .ok (.list (rangeList a b))
  | "range", _ => .error (.typeError "range")
  | "print", _ => .ok .none
  | f, _ => .error (.notModelled f)

/-- `value[slice]` of the `ast.Subscript` branch: list indexing (with
Python's negative indices), string indexing, dict lookup. -/
def applySubscript : Value → Value → Except Err Value
  | .list xs, .int i =>
      let j : Int := if i < 0 then i + xs.length else i
      if h : 0 ≤ j ∧ j.toNat < xs.length then .ok (xs.get ⟨j.toNat, h.2⟩)
      else .error .indexError
  | .str s, .int i =>
      let cs := s.data
      let j : Int := if i < 0 then i + cs.length else i
      if h : 0 ≤ j ∧ j.toNat < cs.length then
        .ok (.str (String.mk [cs.get ⟨j.toNat, h.2⟩]))
      else .error .indexError
  | .dict ps, k =>
      match (ps.filter (fun p => valueBeq p.1 k)).head? with
      | some p => .ok p.2
      | Option.none => .error .indexError
  | _, _ => .error (.typeError "unsubscriptable")

/-- `zip(param_names, args)` used to seed a new frame's locals: extra
arguments are dropped, missing parameters stay unbound. -/
def zipParams : List String → List Value → List (String × Value)
  | [], _ => []
  | _, [] => []
  | p :: ps, v :: vs => (p, v) :: zipParams ps vs

/-- The per-target update loop shared by the direct executor's
`ast.Assign` branches: only `ast.Name` targets bind. -/
def assignNames (targets : List Target) (v : Value) (locals : List (String × Value)) :
    List (String × Value) :=
  targets.foldl (fun ls t => match t with | .name id => setLocal ls id v | _ => ls) locals

mutual

/-- Shallow embedding of `UIVisualizer._evaluate_expression`, fuel-bounded.
The scope chain is the live call stack, innermost first.  Notable
faithful details: `ast.BoolOp` has no case and falls through to the
final `TypeError("Unsupported expression type: ...")`; the call case
checks the builtin list before user functions; an unknown function
name raises `NameError("Function '...' not found")`.  Presentation
side effects that the source performs inside synchronously executed
functions (parameter widgets, return widgets) are not modelled here —
no claim counts events produced inside expression evaluation. -/
def evalExpr (fuel : Nat) (fns : List (String × FuncDef)) (stack : List ScopeView)
    (e : Expr) : Except Err Value :=
  match fuel with
  | 0 => .error .fuelExhausted
  | Nat.succ fl =>
    match e with
    | .const v => .ok v
    | .nameRef id =>
        match lookupChain stack id with
        | some v => .ok v
        | Option.none => .error (.nameError id)
    | .boolOp _ _ => .error (.typeError "Unsupported expression type: BoolOp")
    | .binOp l op r => do
        let lv ← evalExpr fl fns stack l
        let rv ← evalExpr fl fns stack r
        applyBinOp op lv rv
    | .unaryOp op x => do
        let v ← evalExpr fl fns stack x
        applyUnaryOp op v
    | .compare l op r => do
        let lv ← evalExpr fl fns stack l
        let rv ← evalExpr fl fns stack r
        applyCmpOp op lv rv
    | .call f args => do
        let vals ← evalExprs fl fns stack args
        evalCall fl fns stack f vals
    | .listLit elts => do
        let vs ← evalExprs fl fns stack elts
        .ok (.list vs)
    | .subscriptExpr obj idx => do
        let ov ← evalExpr fl fns stack obj
        let iv ← evalExpr fl fns stack idx
        applySubscript ov iv

/-- Left-to-right evaluation of an argument/element list. -/
def evalExprs (fuel : Nat) (fns : List (String × FuncDef)) (stack : List ScopeView)
    (es : List Expr) : Except Err (List Value) :=
  match fuel with
  | 0 => .error .fuelExhausted
  | Nat.succ fl =>
    match es with
    | [] => .ok []
    | e :: rest => do
        let v ← evalExpr fl fns stack e
        let vs ← evalExprs fl fns stack rest
        .ok (v :: vs)

/-- The call dispatch of `_evaluate_expression`'s `ast.Call` branch
(after the arguments are evaluated): classes are not modelled (empty
registry), then builtins, then user functions via the synchronous
direct executor, then `input` (model boundary), then `NameError`. -/
def evalCall (fuel : Nat) (fns : List (String × FuncDef)) (stack : List ScopeView)
    (f : String) (vals : List Value) : Except Err Value :=
  match fuel with
  | 0 => .error .fuelExhausted
  | Nat.succ fl =>
    if builtinNames.contains f then evalBuiltin f vals
    else
      match lookupFn fns f with
      | some fd => execFunc fl fns stack fd vals
      | Option.none =>
          if f == "input" then .error (.notModelled "input")
          else .error (.nameError f)

/-- Shallow embedding of `UIVisualizer._execute_function_directly`: the
synchronous executor for function calls that occur inside expressions.
If more than `MAX_RECURSION_DEPTH` (50) active frames already carry the
callee's name, it returns `None` immediately — there is no base-case
heuristic of any kind.  Otherwise a fresh frame seeded by
`zip(param_names, args)` is pushed and the body is walked by the
restricted statement loop below. -/
def execFunc (fuel : Nat) (fns : List (String × FuncDef)) (stack : List ScopeView)
    (fd : FuncDef) (args : List Value) : Except Err Value :=
  match fuel with
  | 0 => .error .fuelExhausted
  | Nat.succ fl =>
    if maxRecursionDepth < countFramesMatching stack fd.name then .ok .none
    else execStmts fl fns stack fd.name (zipParams fd.params args) fd.body

/-- The top-level statement loop of `_execute_function_directly`: only
`ast.Return`, `ast.Assign` and `ast.If` are recognized; every other
statement kind is silently skipped; falling off the end returns `None`.
All expression evaluation happens with the callee's frame pushed on the
stack, as the source appends `new_frame` before the loop. -/
def execStmts (fuel : Nat) (fns : List (String × FuncDef)) (stack : List ScopeView)
    (fname : String) (locals : List (String × Value)) (stmts : List Stmt) :
    Except Err Value :=
  match fuel with
  | 0 => .error .fuelExhausted
  | Nat.succ fl =>
    match stmts with
    | [] => .ok .none
    | stmt :: rest =>
      match stmt with
      | .ret Option.none _ => .ok .none
      | .ret (some e) _ => evalExpr fl fns (⟨fname, locals⟩ :: stack) e
      | .assign targets e _ => do
          let v ← evalExpr fl fns (⟨fname, locals⟩ :: stack) e
          execStmts fl fns stack fname (assignNames targets v locals) rest
      | .ifStmt test body orelse _ => do
          let tv ← evalExpr fl fns (⟨fname, locals⟩ :: stack) test
          let res ← execSubStmts fl fns stack fname locals
            (if truthy tv then body else orelse)
          match res.2 with
          | some rv => .ok rv
          | Option.none => execStmts fl fns stack fname res.1 rest
      | _ => execStmts fl fns stack fname locals rest

/-- The inner loop over a chosen `ast.If` branch inside
`_execute_function_directly`: only `ast.Return` (which returns from the
whole function) and `ast.Assign` are handled; the updated locals and an
optional return value are reported back. -/
def execSubStmts (fuel : Nat) (fns : List (String × FuncDef)) (stack : List ScopeView)
    (fname : String) (locals : List (String × Value)) (stmts : List Stmt) :
    Except Err (List (String × Value) × Option Value) :=
  match fuel with
  | 0 => .error .fuelExhausted
  | Nat.succ fl =>
    match stmts with
    | [] => .ok (locals, Option.none)
    | .ret Option.none _ :: _ => .ok (locals, some Value.none)
    | .ret (some e) _ :: _ => do
        let v ← evalExpr fl fns (⟨fname, locals⟩ :: stack) e
        .ok (locals, some v)
    | .assign targets e _ :: rest => do
        let v ← evalExpr fl fns (⟨fname, locals⟩ :: stack) e
        execSubStmts fl fns stack fname (assignNames targets v locals) rest
    | _ :: rest => execSubStmts fl fns stack fname locals rest

end

/-- The visual shape `_update_variable` selects for a value (which
widget class is instantiated).  Host objects with `__dict__` are not
modelled, so the `ObjectWidget` case does not arise. -/
inductive Shape where
  | array        -- ArrayWidget (lists)
  | stringCells  -- StringWidget
  | tree         -- TreeWidget
  | dictRows     -- DictionaryWidget
  | scalar       -- SmartVariableWidget
deriving Repr, DecidableEq

/-- Shallow embedding of the EFFECTIVE `_is_tree_structure` (the second
definition in the class body, which overrides the first in Python):
the dict must have the key `'value'`, and at least one of `'left'`,
`'right'`, `'children'`. -/
def isTreeStructure (entries : List (Value × Value)) : Bool :=
  let keys := entries.map Prod.fst
  if !(keys.contains (Value.str "value")) then false
  else
    keys.contains (Value.str "left") || keys.contains (Value.str "right") ||
      keys.contains (Value.str "children")

/-- The OVERRIDDEN first `_is_tree_structure` definition (dead code in
the source, kept here only to document what the spec sentence was
written from; the engine never calls it). -/
def isTreeStructureShadowed (entries : List (Value × Value)) : Bool :=
  let keys := entries.map Prod.fst
  let has := fun (s : String) => keys.contains (Value.str s)
  (has "value" && has "left" && has "right") ||
    (has "data" && has "children") ||
    (has "val" && has "left" && has "right") ||
    (has "key" && has "left" && has "right") ||
    (has "value" && (has "left" || has "right" || has "children"))

/-- Modelled from the spec: the spec's §3 presentation rule "mapping →
key/value rows, OR if it structurally resembles a binary-tree node
(keys overlapping (value|val|data|key) ∪ (left|right|children)) → a
tree diagram", written exactly from those words for comparison with
the code's predicate. -/
def specResemblesTreeNode (keys : List Value) : Bool :=
  (keys.any (fun k => k == Value.str "value" || k == Value.str "val" ||
      k == Value.str "data" || k == Value.str "key")) &&
    (keys.any (fun k => k == Value.str "left" || k == Value.str "right" ||
      k == Value.str "children"))

/-- The type-dispatch of `_update_variable` choosing a widget shape:
list → array row, str → character cells, dict → tree diagram when
`_is_tree_structure` holds else key/value rows, all else → a plain
labeled variable box. -/
def widgetShape : Value → Shape
  | .list _ => .array
  | .str _ => .stringCells
  | .dict entries => if isTreeStructure entries then .tree else .dictRows
  | _ => .scalar

/-- Per-loop bookkeeping stored in `frame.iterators[id(node)]`.  For
`while`: the iteration counter, whether the loop widget exists yet,
and the body statements captured on first encounter.  For `for`: the
remaining items of the materialized iterator, the full materialized
list, the counter, the target variable name, the widget flag and the
captured body. -/
inductive LoopState where
  | whileState : Nat → Bool → List Stmt → LoopState
  | forState : List Value → List Value → Nat → String → Bool → List Stmt → LoopState
deriving Repr

/-- One `CallFrame` of the stepping engine: frame name, the mutable
instruction list, the instruction pointer, locals, the per-loop-node
state dict, and whether the frame owns a `ScopeWidget` (function frames
do, the module frame does not).  The widget dictionary itself is
presentation state and is modelled by the event trace instead. -/
structure Frame where
  name : String
  nodes : List Stmt
  ip : Nat
  locals : List (String × Value)
  loopStates : List (Nat × LoopState)
  hasScopeWidget : Bool
deriving Repr

/-- The scope view of a frame (what expression evaluation reads). -/
def Frame.view (fr : Frame) : ScopeView := ⟨fr.name, fr.locals⟩

/-- The engine state owned by `UIVisualizer`: the run/pause flags, the
function registry, the call stack (innermost frame first; the module
frame is last), `self.return_value` and the pending-return marker
`self.awaiting_return_value`.  The class registry is always empty in
the modelled programs and is omitted; timers and speed are host
scheduling, out of scope. -/
structure Core where
  isRunning : Bool
  isPaused : Bool
  functions : List (String × FuncDef)
  callStack : List Frame
  returnValue : Value
  awaitingReturn : Option Stmt
deriving Repr

/-- The scope chain seen by the evaluator for a given engine state. -/
def viewStack (stack : List Frame) : List ScopeView := stack.map Frame.view

/-- Outbound presentation-adapter calls, recorded as a trace.  Widget
label texts (which the source reads back from the Qt editor) are not
modelled; each event carries the semantic payload only. -/
inductive Event where
  | highlight : Nat → Event                                -- highlight_source_line
  | clearHighlight : Event
  | varUpdate : String → String → Value → Shape → Event    -- show_or_update_variable(frame, name, value[, shape])
  | scopeOpened : String → Event                           -- a ScopeWidget added for a call
  | scopeClosed : String → Event                           -- frame popped, widget removed
  | output : List Value → Event                            -- a SmartPrintBlock (evaluated args)
  | conditionShown : Bool → Event                          -- the if-test widget
  | loopCreated : Event                                    -- a loop widget added
  | loopUpdate : Nat → Event                               -- loop widget iteration update
  | loopEnded : Event                                      -- "Loop ended" / "Loop completed"
  | finished : Event                                       -- executionFinished
deriving Repr

/-- `frame.iterators` lookup by node identity. -/
def lookupLoopState : List (Nat × LoopState) → Nat → Option LoopState
  | [], _ => Option.none
  | (k, st) :: rest, lid => if k == lid then some st else lookupLoopState rest lid

/-- `frame.iterators[id] = state` (replace or append). -/
def setLoopState : List (Nat × LoopState) → Nat → LoopState → List (Nat × LoopState)
  | [], lid, st => [(lid, st)]
  | (k, old) :: rest, lid, st =>
      if k == lid then (k, st) :: rest else (k, old) :: setLoopState rest lid st

/-- `del frame.iterators[id]`. -/
def removeLoopState : List (Nat × LoopState) → Nat → List (Nat × LoopState)
  | [], _ => []
  | (k, st) :: rest, lid =>
      if k == lid then rest else (k, st) :: removeLoopState rest lid

/-- Python's `list.insert(i, x)` (clamping past-the-end indices). -/
def insertAt : Nat → Stmt → List Stmt → List Stmt
  | 0, x, l => x :: l
  | _ + 1, x, [] => [x]
  | n + 1, x, a :: l => a :: insertAt n x l

/-- The splicing loop shared by the While and For dispatch branches:
`for body_node in reversed(body): nodes.insert(ip+1, body_node)`
followed by `nodes.insert(ip + len(body) + 1, node)` — the body in
source order right after the loop node, then the loop node itself. -/
def spliceLoop (nodes : List Stmt) (ip : Nat) (body : List Stmt) (node : Stmt) :
    List Stmt :=
  let withBody := body.reverse.foldl (fun ns b => insertAt (ip + 1) b ns) nodes
  insertAt (ip + body.length + 1) node withBody

/-- The slice assignment of the If branch:
`nodes[ip+1:ip+1] = chosen_branch`. -/
def spliceIf (nodes : List Stmt) (ip : Nat) (body : List Stmt) : List Stmt :=
  nodes.take (ip + 1) ++ body ++ nodes.drop (ip + 1)

/-- `list(iterable)` materialization in the For branch's first
encounter: lists stay, strings become one-character strings; anything
else raises `TypeError` (caught by the dispatch `except`). -/
def materialize : Value → Except Err (List Value)
  | .list xs => .ok xs
  | .str s => .ok (s.data.map (fun c => .str (String.mk [c])))
  | _ => .error (.typeError "object is not iterable")

/-- `UIVisualizer._update_variable` with default frame (the stack top):
bind the name in the top frame's locals and emit the widget update
with the shape chosen by the value's runtime type.  (The removal of a
previously existing widget is presentation-internal and not traced.) -/
def updateVariable (c : Core) (id : String) (v : Value) : Core × List Event :=
  match c.callStack with
  | [] => (c, [])   -- unreachable: the source indexes call_stack[-1]
  | fr :: rest =>
      ({ c with callStack := { fr with locals := setLocal fr.locals id v } :: rest },
       [.varUpdate fr.name id v (widgetShape v)])

/-- Increment the instruction pointer of the top frame
(`current_frame.ip += 1`). -/
def incTopIp (c : Core) : Core :=
  match c.callStack with
  | [] => c
  | fr :: rest => { c with callStack := { fr with ip := fr.ip + 1 } :: rest }

/-- Increment the instruction pointer of the frame UNDER the top one:
after `_execute_call` pushes the callee, line 216's
`current_frame.ip += 1` still refers to the caller. -/
def incCallerIp (c : Core) : Core :=
  match c.callStack with
  | nf :: fr :: rest => { c with callStack := nf :: { fr with ip := fr.ip + 1 } :: rest }
  | _ => c

/-- `UIVisualizer._execute_call`: resolve the callee in
`self.functions` (silently stepping over builtins/unknowns), evaluate
the arguments in the caller's scope, build the new frame seeded by
`zip(param_names, args)`, add its scope widget and parameter widgets,
and push it.  There is NO depth ceiling on this statement-level path. -/
def executeCall (fuel : Nat) (c : Core) (f : String) (args : List Expr) :
    Except Err (Core × List Event) :=
  match lookupFn c.functions f with
  | Option.none => .ok (c, [])
  | some fd => do
      let vals ← evalExprs fuel c.functions (viewStack c.callStack) args
      let newFr : Frame :=
        { name := f, nodes := fd.body, ip := 0,
          locals := zipParams fd.params vals, loopStates := [], hasScopeWidget := true }
      let evs := Event.scopeOpened f ::
        newFr.locals.map (fun p => Event.varUpdate f p.1 p.2 (widgetShape p.2))
      .ok ({ c with callStack := newFr :: c.callStack }, evs)

/-- `UIVisualizer._execute_assignment`: evaluate the right-hand side
first; for `ast.Assign` bind every `ast.Name` target (non-name targets
are silently skipped); for `ast.AugAssign` read `node.target.id`
(an `AttributeError` when the target is not a name — faithfully, after
the RHS was already evaluated), evaluate the current value through a
synthetic `ast.Name` (i.e. the full scope chain), apply the operator
and write back into the top frame. -/
def executeAssignment (fuel : Nat) (c : Core) (node : Stmt) :
    Except Err (Core × List Event) :=
  match node with
  | .assign targets e _ => do
      let v ← evalExpr fuel c.functions (viewStack c.callStack) e
      let res := targets.foldl
        (fun (acc : Core × List Event) t =>
          match t with
          | .name id =>
              let r := updateVariable acc.1 id v
              (r.1, acc.2 ++ r.2)
          | _ => acc) (c, [])
      .ok res
  | .augAssign tgt op e _ => do
      let v ← evalExpr fuel c.functions (viewStack c.callStack) e
      match tgt with
      | .name id => do
          let cur ← evalExpr fuel c.functions (viewStack c.callStack) (.nameRef id)
          let nv ← applyBinOp op cur v
          .ok (updateVariable c id nv)
      | _ => .error .attributeError
  | _ => .ok (c, [])

/-- `UIVisualizer._execute_print`: evaluate each argument and emit one
finished output block.  (The source also recovers the argument text
from the editor for the label; presentation only.) -/
def executePrint (fuel : Nat) (c : Core) (args : List Expr) :
    Except Err (Core × List Event) := do
  let vals ← evalExprs fuel c.functions (viewStack c.callStack) args
  .ok (c, [Event.output vals])

/-- `UIVisualizer._finish_execution`: clear the highlight, drop the
run/pause flags, emit the finished signal.  The call stack is NOT
cleared here (nor anywhere but `start`). -/
def finishCore (c : Core) : Core :=
  { c with isRunning := false, isPaused := false }

/-- The events `_finish_execution` produces. -/
def finishEvents : List Event := [Event.clearHighlight, Event.finished]

/-- `UIVisualizer._handle_return`: when more than one frame is live,
pop the top frame (removing its scope widget) and store the value in
`self.return_value`; when only the module frame remains, store the
value and finish the run. -/
def handleReturn (c : Core) (v : Value) : Core × List Event :=
  match c.callStack with
  | fr :: rest@(_ :: _) =>
      ({ c with callStack := rest, returnValue := v },
       if fr.hasScopeWidget then [Event.scopeClosed fr.name] else [])
  | _ =>
      (finishCore { c with returnValue := v }, finishEvents)

/-- The pending-return resolution block at the top of `_next_step`: if
`self.awaiting_return_value` is set, clear it, apply
`self.return_value` to each `ast.Name` target when the waiting node is
an `ast.Assign` (an `ast.AugAssign` or expression statement gets NO
update), then advance the TOP frame's instruction pointer — whatever
frame that currently is. -/
def resolveMarker (c : Core) : Core × List Event :=
  match c.awaitingReturn with
  | Option.none => (c, [])
  | some node =>
      let c1 := { c with awaitingReturn := Option.none }
      let res :=
        match node with
        | .assign targets _ _ =>
            targets.foldl
              (fun (acc : Core × List Event) (t : Target) =>
                match t with
                | .name id =>
                    let r := updateVariable acc.1 id c.returnValue
                    (r.1, acc.2 ++ r.2)
                | _ => acc) ((c1, []) : Core × List Event)
        | _ => (c1, [])
      (incTopIp res.1, res.2)

/-- The result of dispatching one statement: the (possibly partially
mutated) engine state, the presentation events emitted before any
failure, and the error the `except` clause of `_next_step` would
catch. -/
structure StepRes where
  core : Core
  events : List Event
  err : Option Err
deriving Repr

/-- Test whether an expression is a direct call to a user-defined
function — the guard `isinstance(node.value, ast.Call) and
isinstance(node.value.func, ast.Name) and node.value.func.id in
self.functions` of the assignment dispatch branch. -/
def isUserFnCall (fns : List (String × FuncDef)) : Expr → Bool
  | .call f _ => (lookupFn fns f).isSome
  | _ => false

/-- The statement dispatch chain of `UIVisualizer._next_step` (the body
of its `try`), one branch per recognized node class, mirroring the
source's control flow, mutation order and event order.  Statements not
matched by any branch (e.g. a bare non-call expression) leave the state
unchanged — including the instruction pointer, so the source would
re-dispatch them forever. -/
def dispatch (fuel : Nat) (c : Core) (node : Stmt) : StepRes :=
  match c.callStack with
  | [] => ⟨c, [], Option.none⟩  -- unreachable: _next_step returns earlier
  | fr :: rest =>
    match node with
    | .assign _ e _ =>
        if isUserFnCall c.functions e then
          -- pending-return path: marker set, call dispatched, ip NOT advanced
          let c1 := { c with awaitingReturn := some node }
          match e with
          | .call f args =>
              (match executeCall fuel c1 f args with
               | .ok (c2, evs) => ⟨c2, evs, Option.none⟩
               | .error er => ⟨c1, [], some er⟩)
          | _ => ⟨c1, [], Option.none⟩  -- unreachable: isUserFnCall demands a call
        else
          match executeAssignment fuel c node with
          | .ok (c2, evs) => ⟨incTopIp c2, evs, Option.none⟩
          | .error er => ⟨c, [], some er⟩
    | .augAssign _ _ e _ =>
        if isUserFnCall c.functions e then
          let c1 := { c with awaitingReturn := some node }
          match e with
          | .call f args =>
              (match executeCall fuel c1 f args with
               | .ok (c2, evs) => ⟨c2, evs, Option.none⟩
               | .error er => ⟨c1, [], some er⟩)
          | _ => ⟨c1, [], Option.none⟩
        else
          match executeAssignment fuel c node with
          | .ok (c2, evs) => ⟨incTopIp c2, evs, Option.none⟩
          | .error er => ⟨c, [], some er⟩
    | .exprStmt (.call f args) _ =>
        if f == "print" then
          match executePrint fuel c args with
          | .ok (c2, evs) => ⟨incTopIp c2, evs, Option.none⟩
          | .error er => ⟨c, [], some er⟩
        else if (lookupFn c.functions f).isSome then
          let c1 := { c with awaitingReturn := some node }
          match executeCall fuel c1 f args with
          | .ok (c2, evs) => ⟨incCallerIp c2, evs, Option.none⟩
          | .error er => ⟨c1, [], some er⟩
        else
          -- builtins other than print and unknown names: just step over
          ⟨incTopIp c, [], Option.none⟩
    | .exprStmt _ _ => ⟨c, [], Option.none⟩  -- no branch matches: ip is NOT advanced
    | .ret eOpt _ =>
        let v? := match eOpt with
          | some e => evalExpr fuel c.functions (viewStack c.callStack) e
          | Option.none => .ok Value.none
        (match v? with
         | .ok v =>
             let r := handleReturn c v
             ⟨r.1, r.2, Option.none⟩
         | .error er => ⟨c, [], some er⟩)
    | .ifStmt test body orelse _ =>
        (match evalExpr fuel c.functions (viewStack c.callStack) test with
         | .ok tv =>
             let chosen := if truthy tv then body else orelse
             let fr2 := { fr with nodes := spliceIf fr.nodes fr.ip chosen, ip := fr.ip + 1 }
             ⟨{ c with callStack := fr2 :: rest }, [Event.conditionShown (truthy tv)],
              Option.none⟩
         | .error er => ⟨c, [], some er⟩)
    | .whileStmt lid test body _ =>
        -- first-encounter state creation happens BEFORE the test is evaluated,
        -- so it survives even if the evaluation then raises
        let st := match lookupLoopState fr.loopStates lid with
          | some s => s
          | Option.none => LoopState.whileState 0 false body
        let fr1 := { fr with loopStates := setLoopState fr.loopStates lid st }
        let c1 := { c with callStack := fr1 :: rest }
        (match st with
         | .whileState iter widgetMade storedBody =>
             (match evalExpr fuel c1.functions (viewStack c1.callStack) test with
              | .error er => ⟨c1, [], some er⟩
              | .ok tv =>
                  let creation := if widgetMade then [] else [Event.loopCreated]
                  if truthy tv then
                    let fr2 := { fr1 with
                      loopStates := setLoopState fr1.loopStates lid
                        (.whileState (iter + 1) true storedBody),
                      nodes := spliceLoop fr1.nodes fr1.ip storedBody node,
                      ip := fr1.ip + 1 }
                    ⟨{ c1 with callStack := fr2 :: rest },
                     creation ++ [Event.loopUpdate (iter + 1)], Option.none⟩
                  else
                    let fr2 := { fr1 with
                      loopStates := removeLoopState fr1.loopStates lid,
                      ip := fr1.ip + 1 }
                    ⟨{ c1 with callStack := fr2 :: rest },
                     creation ++ [Event.loopEnded], Option.none⟩)
         | _ => ⟨c1, [], some (.typeError "loop state mismatch")⟩)
    | .forStmt lid tgt iterExpr body _ =>
        (match lookupLoopState fr.loopStates lid with
         | some st =>
             (match st with
              | .forState remaining full iter tv widgetMade storedBody =>
                  let creation := if widgetMade then [] else [Event.loopCreated]
                  (match remaining with
                   | item :: restItems =>
                       let fr2 := { fr with
                         loopStates := setLoopState fr.loopStates lid
                           (.forState restItems full (iter + 1) tv true storedBody),
                         locals := setLocal fr.locals tv item,
                         nodes := spliceLoop fr.nodes fr.ip storedBody node,
                         ip := fr.ip + 1 }
                       ⟨{ c with callStack := fr2 :: rest },
                        creation ++ [Event.varUpdate fr.name tv item (widgetShape item),
                          Event.loopUpdate (iter + 1)], Option.none⟩
                   | [] =>
                       let fr2 := { fr with
                         loopStates := removeLoopState fr.loopStates lid,
                         ip := fr.ip + 1 }
                       ⟨{ c with callStack := fr2 :: rest },
                        creation ++ [Event.loopEnded], Option.none⟩)
              | _ => ⟨c, [], some (.typeError "loop state mismatch")⟩)
         | Option.none =>
             -- first encounter: evaluate the iterable ONCE and materialize it
             (match evalExpr fuel c.functions (viewStack c.callStack) iterExpr with
              | .error er => ⟨c, [], some er⟩
              | .ok iv =>
                  (match materialize iv with
                   | .error er => ⟨c, [], some er⟩
                   | .ok items =>
                       (match items with
                        | item :: restItems =>
                            let fr2 := { fr with
                              loopStates := setLoopState fr.loopStates lid
                                (.forState restItems items 1 tgt true body),
                              locals := setLocal fr.locals tgt item,
                              nodes := spliceLoop fr.nodes fr.ip body node,
                              ip := fr.ip + 1 }
                            ⟨{ c with callStack := fr2 :: rest },
                             [Event.loopCreated,
                              Event.varUpdate fr.name tgt item (widgetShape item),
                              Event.loopUpdate 1], Option.none⟩
                        | [] =>
                            let fr2 := { fr with ip := fr.ip + 1 }
                            ⟨{ c with callStack := fr2 :: rest },
                             [Event.loopCreated, Event.loopEnded], Option.none⟩))))

/-- One call of `UIVisualizer._next_step`: the pause/stop/empty-stack
guard, the pending-return resolution, the implicit-return pop when the
pointer has run off the end, and otherwise one statement dispatch with
its line highlighted first; a raised error is caught, reported once on
the console (the `Option Err` component) and terminates the run. -/
def nextStep (fuel : Nat) (c : Core) : Core × List Event × Option Err :=
  if c.isPaused || !c.isRunning || c.callStack.isEmpty then
    if c.callStack.isEmpty && c.isRunning then
      (finishCore c, finishEvents, Option.none)
    else (c, [], Option.none)
  else
    let r0 := resolveMarker c
    let c1 := r0.1
    match c1.callStack with
    | [] => (c1, r0.2, Option.none)  -- unreachable: resolveMarker keeps the stack
    | fr :: _ =>
        if h : fr.nodes.length ≤ fr.ip then
          let r := handleReturn c1 Value.none
          (r.1, r0.2 ++ r.2, Option.none)
        else
          let node := fr.nodes.get ⟨fr.ip, Nat.lt_of_not_le (fun hl => absurd hl h)⟩
          let res := dispatch fuel c1 node
          match res.err with
          | some er =>
              (finishCore res.core,
               r0.2 ++ Event.highlight node.line :: res.events ++ finishEvents,
               some er)
          | Option.none =>
              (res.core, r0.2 ++ Event.highlight node.line :: res.events, Option.none)

/-- The state transition of one step (events dropped). -/
def stepCore (fuel : Nat) (c : Core) : Core := (nextStep fuel c).1

/-- Drive the engine `n` steps, accumulating the event trace and the
console diagnostics (each step contributes at most one). -/
def runSteps (fuel : Nat) : Nat → Core → Core × List Event × List Err
  | 0, c => (c, [], [])
  | n + 1, c =>
      let r := nextStep fuel c
      let rest := runSteps fuel n r.1
      (rest.1, r.2.1 ++ rest.2.1, (match r.2.2 with
        | some e => e :: rest.2.2
        | Option.none => rest.2.2))

/-- `UIVisualizer.stop`: when a run is active, clear the run/pause
flags (and stop the timer and the source highlight — host/presentation
concerns).  The call stack, the canvas contents and the function
registry are left untouched; only the next `start` clears them. -/
def stop (c : Core) : Core :=
  if c.isRunning then { c with isRunning := false, isPaused := false } else c

/-- Count the `show_or_update_variable` events of a trace. -/
def countVarUpdates (evs : List Event) : Nat :=
  (evs.filter (fun e => match e with | .varUpdate _ _ _ _ => true | _ => false)).length

/-! ## Concrete programs used by the claim theorems -/

/-- `def f(): return 5` -/
def fDefC2 : FuncDef := ⟨"f", [], [.ret (some (.const (.int 5))) 1]⟩

/-- Initial engine state for the program `def f(): return 5` followed by
`x = f()` (the assignment is the only module statement; the function
definition is pre-extracted into the registry, as `start` does). -/
def c2init : Core :=
  ⟨true, false, [("f", fDefC2)],
   [⟨"<module>", [.assign [.name "x"] (.call "f" []) 2], 0, [], [], false⟩],
   .none, Option.none⟩

/-- `def f(x): x = 2; x = 3` — a function whose parameter shadows the
global `x` and which rebinds it locally. -/
def fDefC6 : FuncDef :=
  ⟨"f", ["x"],
   [.assign [.name "x"] (.const (.int 2)) 4,
    .assign [.name "x"] (.const (.int 3)) 5]⟩

/-- Initial state for the scoping scenario `x = 1` then `f(5)` with the
shadowing function above. -/
def c6init : Core :=
  ⟨true, false, [("f", fDefC6)],
   [⟨"<module>",
     [.assign [.name "x"] (.const (.int 1)) 1,
      .exprStmt (.call "f" [.const (.int 5)]) 2], 0, [], [], false⟩],
   .none, Option.none⟩

/-- Initial state for the undefined-name scenario: the single statement
`print(x)` with `x` never assigned. -/
def c7init : Core :=
  ⟨true, false, [],
   [⟨"<module>", [.exprStmt (.call "print" [.nameRef "x"]) 1], 0, [], [], false⟩],
   .none, Option.none⟩

/-- The test of `while i < 2`. -/
def testW : Expr := .compare (.nameRef "i") .lt (.const (.int 2))

/-- The body of `while i < 2: i += 1`. -/
def bodyW : List Stmt := [.augAssign (.name "i") .add (.const (.int 1)) 3]

/-- The loop node of `while i < 2: i += 1` (node identity 7). -/
def whileNodeW : Stmt := .whileStmt 7 testW bodyW 2

/-- A frame sitting right at the while node with its loop state already
created (one iteration done, widget created, `i = 0` rebound so the
test passes once more). -/
def frW : Frame :=
  ⟨"<module>", [whileNodeW], 0, [("i", .int 0)], [(7, .whileState 1 true bodyW)], false⟩

/-- The loop node of `for i in [10, 20, 30]: y = i` (node identity 9). -/
def forNodeF : Stmt :=
  .forStmt 9 "i" (.const (.list [.int 10, .int 20, .int 30]))
    [.assign [.name "y"] (.nameRef "i") 2] 1

/-- Initial state for the three-element for loop above. -/
def c4init : Core :=
  ⟨true, false, [], [⟨"<module>", [forNodeF], 0, [], [], false⟩], .none, Option.none⟩

/-- The body of `for i in ...: y = i`. -/
def bodyF : List Stmt := [.assign [.name "y"] (.nameRef "i") 2]

/-- A mid-run frame at a for node with two items already consumed and
an iterable expression that would now FAIL to evaluate (`nameRef
"gone"` is unbound) — dispatching from here still succeeds because the
iterable is never re-evaluated once the loop state exists. -/
def frF : Frame :=
  ⟨"<module>", [.forStmt 9 "i" (.nameRef "gone") bodyF 1],
   0, [("i", .int 20), ("y", .int 20)],
   [(9, .forState [.int 30] [.int 10, .int 20, .int 30] 2 "i" true bodyF)],
   false⟩

/-- `def factorial(n): if n <= 1: return 1` / `return n * factorial(n - 1)`. -/
def factDef : FuncDef :=
  ⟨"factorial", ["n"],
   [.ifStmt (.compare (.nameRef "n") .le (.const (.int 1)))
      [.ret (some (.const (.int 1))) 3] [] 2,
    .ret (some (.binOp (.nameRef "n") .mul
      (.call "factorial" [.binOp (.nameRef "n") .sub (.const (.int 1))]))) 4]⟩

/-- A scope chain on which 51 frames already carry the name
`factorial`, i.e. one past the `MAX_RECURSION_DEPTH` ceiling of 50. -/
def deepStack51 : List ScopeView := List.replicate 51 ⟨"factorial", []⟩

/-- A running state with a non-empty call stack, used against `stop`. -/
def c8run : Core :=
  ⟨true, false, [], [⟨"<module>", [], 0, [("x", .int 1)], [], false⟩],
   .none, Option.none⟩

/-- A dict value shaped like a LeetCode-style tree node: keys
`val`/`left`/`right`. -/
def dC9 : List (Value × Value) :=
  [(.str "val", .int 1), (.str "left", .none), (.str "right", .none)]

/-- Initial state for the single statement `a[0] += 1` (augmented
assignment with a subscript target). -/
def c10bad : Core :=
  ⟨true, false, [],
   [⟨"<module>", [.augAssign .subscript .add (.const (.int 1)) 1], 0,
     [("a", .list [.int 1, .int 2])], [], false⟩],
   .none, Option.none⟩

/-- Initial state for the single statement `a[0] = 3` (plain assignment
with a subscript target, constant right-hand side). -/
def c10plain : Core :=
  ⟨true, false, [],
   [⟨"<module>", [.assign [.subscript] (.const (.int 3)) 1], 0,
     [("a", .list [.int 1, .int 2])], [], false⟩],
   .none, Option.none⟩

/-! ## Helper lemmas -/

/-- Python's `list.insert` is take/insert/drop (with clamping). -/
theorem insertAt_eq (n : Nat) (x : Stmt) (l : List Stmt) :
    insertAt n x l = l.take n ++ x :: l.drop n := by
  induction n generalizing l with
  | zero => cases l <;> simp [insertAt]
  | succ m ih =>
    cases l with
    | nil => simp [insertAt]
    | cons a t => simp [insertAt, ih]

/-- Inserting each element of `body` (last first) at a fixed in-range
position lays the body out in source order at that position. -/
theorem foldr_insertAt (body : List Stmt) (nodes : List Stmt) (n : Nat)
    (h : n ≤ nodes.length) :
    body.foldr (fun b ns => insertAt n b ns) nodes
      = nodes.take n ++ body ++ nodes.drop n := by
  induction body with
  | nil => simp
  | cons b bs ih =>
    have hlen : (nodes.take n).length = n := by
      simp [List.length_take, Nat.min_eq_left h]
    rw [List.foldr_cons, ih, insertAt_eq]
    rw [show nodes.take n ++ bs ++ nodes.drop n
          = nodes.take n ++ (bs ++ nodes.drop n) by simp]
    rw [List.take_left' hlen, List.drop_left' hlen]
    simp

/-- The While/For splicing loop equals: body in order right after the
loop node, then the loop node itself, then the rest. -/
theorem spliceLoop_eq (nodes : List Stmt) (ip : Nat) (body : List Stmt) (node : Stmt)
    (h : ip < nodes.length) :
    spliceLoop nodes ip body node
      = nodes.take (ip + 1) ++ body ++ node :: nodes.drop (ip + 1) := by
  unfold spliceLoop
  rw [List.foldl_reverse]
  rw [foldr_insertAt body nodes (ip + 1) (by omega)]
  rw [insertAt_eq]
  have hlen : (nodes.take (ip + 1) ++ body).length = ip + body.length + 1 := by
    simp only [List.length_append, List.length_take,
      Nat.min_eq_left (by omega : ip + 1 ≤ nodes.length)]
    omega
  rw [show nodes.take (ip + 1) ++ body ++ nodes.drop (ip + 1)
        = (nodes.take (ip + 1) ++ body) ++ nodes.drop (ip + 1) by simp]
  rw [List.take_left' hlen, List.drop_left' hlen]

/-- Re-storing the looked-up loop state is the identity. -/
theorem setLoopState_self (ls : List (Nat × LoopState)) (lid : Nat) (st : LoopState)
    (h : lookupLoopState ls lid = some st) : setLoopState ls lid st = ls := by
  induction ls with
  | nil => simp [lookupLoopState] at h
  | cons p rest ih =>
    obtain ⟨k, old⟩ := p
    by_cases hk : (k == lid) = true
    · simp only [lookupLoopState, hk, if_true, Option.some.injEq] at h
      subst h
      simp [setLoopState, hk]
    · simp only [lookupLoopState, hk, if_false] at h
      simp [setLoopState, hk, ih h]

/-- Storing a loop state makes it the one found. -/
theorem lookupLoopState_set (ls : List (Nat × LoopState)) (lid : Nat) (st : LoopState) :
    lookupLoopState (setLoopState ls lid st) lid = some st := by
  induction ls with
  | nil => simp [setLoopState, lookupLoopState]
  | cons p rest ih =>
    obtain ⟨k, old⟩ := p
    by_cases hk : (k == lid) = true
    · simp [setLoopState, lookupLoopState, hk]
    · simp [setLoopState, lookupLoopState, hk, ih]

/-- A key absent from the association list is not found. -/
theorem lookupLoopState_eq_none (ls : List (Nat × LoopState)) (lid : Nat)
    (h : lid ∉ ls.map Prod.fst) : lookupLoopState ls lid = Option.none := by
  induction ls with
  | nil => rfl
  | cons p rest ih =>
    obtain ⟨k, old⟩ := p
    simp only [List.map_cons, List.mem_cons, not_or] at h
    have hk : (k == lid) = false := by
      simp only [beq_eq_false_iff_ne, ne_eq]
      exact fun hkk => h.1 hkk.symm
    simp [lookupLoopState, hk, ih h.2]

/-- Deleting a loop state removes it for good (keys are unique, as they
are Python dict keys). -/
theorem lookupLoopState_remove (ls : List (Nat × LoopState)) (lid : Nat)
    (hnd : (ls.map Prod.fst).Nodup) :
    lookupLoopState (removeLoopState ls lid) lid = Option.none := by
  induction ls with
  | nil => rfl
  | cons p rest ih =>
    obtain ⟨k, old⟩ := p
    simp only [List.map_cons, List.nodup_cons] at hnd
    by_cases hk : (k == lid) = true
    · have hkeq : k = lid := by simpa using hk
      subst hkeq
      simp only [removeLoopState, hk, if_true]
      exact lookupLoopState_eq_none rest k hnd.1
    · simp [removeLoopState, lookupLoopState, hk, ih hnd.2]

/-- Frames hidden by a prefix of the chain that lacks the name do not
affect the walk. -/
theorem lookupChain_append_none (s1 s2 : List ScopeView) (id : String)
    (h : ∀ f ∈ s1, lookupLocal f.locals id = Option.none) :
    lookupChain (s1 ++ s2) id = lookupChain s2 id := by
  induction s1 with
  | nil => rfl
  | cons f rest ih =>
    simp only [List.cons_append, lookupChain]
    rw [h f (by simp)]
    exact ih (fun g hg => h g (by simp [hg]))

/-- A name bound in no frame is not found by the walk. -/
theorem lookupChain_eq_none (stack : List ScopeView) (id : String)
    (h : ∀ f ∈ stack, lookupLocal f.locals id = Option.none) :
    lookupChain stack id = Option.none := by
  induction stack with
  | nil => rfl
  | cons f rest ih =>
    simp only [lookupChain]
    rw [h f (by simp)]
    exact ih (fun g hg => h g (by simp [hg]))

/-- Unfolding of one `_next_step` call in the common situation: engine
running, not paused, no pending-return marker set, and the instruction
pointer resting on a real node — the step highlights the node's line,
dispatches it, and either keeps the dispatch result or (on error)
reports one diagnostic and finishes the run. -/
theorem nextStep_dispatch (fuel : Nat) (fns : List (String × FuncDef)) (fr : Frame)
    (rest : List Frame) (rv : Value) (node : Stmt)
    (hnode : fr.nodes.get? fr.ip = some node) :
    nextStep fuel ⟨true, false, fns, fr :: rest, rv, Option.none⟩
      = (match (dispatch fuel ⟨true, false, fns, fr :: rest, rv, Option.none⟩ node).err with
         | some er =>
             (finishCore (dispatch fuel ⟨true, false, fns, fr :: rest, rv, Option.none⟩ node).core,
              Event.highlight node.line ::
                (dispatch fuel ⟨true, false, fns, fr :: rest, rv, Option.none⟩ node).events
                ++ finishEvents,
              some er)
         | Option.none =>
             ((dispatch fuel ⟨true, false, fns, fr :: rest, rv, Option.none⟩ node).core,
              Event.highlight node.line ::
                (dispatch fuel ⟨true, false, fns, fr :: rest, rv, Option.none⟩ node).events,
              Option.none)) := by
  obtain ⟨hlt, hget⟩ := List.get?_eq_some.mp hnode
  have hget2 : ∀ (p : fr.ip < fr.nodes.length), fr.nodes.get ⟨fr.ip, p⟩ = node :=
    fun _ => hget
  unfold nextStep
  simp only [resolveMarker, List.isEmpty_cons, Bool.not_true, Bool.or_false, Bool.false_or,
    Bool.or_self, if_false, dif_neg (Nat.not_le.mpr hlt), hget2]
  simp

/-- A stopped engine ignores further `step` calls: the guard at the top
of `_next_step` returns immediately, with no state change and no
events (the source's post-run idempotence). -/
theorem nextStep_not_running (fuel : Nat) (c : Core) (h : c.isRunning = false) :
    nextStep fuel c = (c, [], Option.none) := by
  unfold nextStep
  simp [h]

/-- The per-target loop of `_execute_assignment` is a no-op when no
target is an `ast.Name`. -/
theorem assign_fold_skip (v : Value) (targets : List Target) (acc : Core × List Event)
    (h : ∀ t ∈ targets, ∀ id, t ≠ Target.name id) :
    targets.foldl
      (fun (acc : Core × List Event) t =>
        match t with
        | .name id =>
            let r := updateVariable acc.1 id v
            (r.1, acc.2 ++ r.2)
        | _ => acc) acc = acc := by
  induction targets generalizing acc with
  | nil => rfl
  | cons t ts ih =>
    cases t
    case name id => exact absurd rfl (h _ (by simp) id)
    all_goals
      simp only [List.foldl_cons]
      exact ih acc (fun u hu => h u (by simp [hu]))

/-! ## Claim theorems -/

/-- **C1**, counterexample: evaluating `False and undefined_function()`
does not return `False` — `_evaluate_expression` has no `ast.BoolOp`
case, so the expression falls through to the terminal
`TypeError("Unsupported expression type: ...")`; the claim that the
evaluator short-circuits and "raises no error" is false (the second
operand's name is indeed never resolved, but only because evaluation
fails first). -/
theorem c1_boolop_counterexample :
    evalExpr 8 [] [⟨"<module>", []⟩]
        (.boolOp true [.const (.bool false), .call "undefined_function" []])
      = .error (.typeError "Unsupported expression type: BoolOp") ∧
    evalExpr 8 [] [⟨"<module>", []⟩]
        (.boolOp true [.const (.bool false), .call "undefined_function" []])
      ≠ .ok (.bool false) :=
  ⟨rfl, fun h => Except.noConfusion h⟩

/-- **C1** (amended): boolean `and`/`or` expressions are not supported
by the expression evaluator at all — for every `ast.BoolOp` node,
whatever its operator, operands, the function registry and the scope
chain, evaluation raises the unsupported-expression-type error without
evaluating (or resolving) any operand. -/
theorem c1_boolop_unsupported (fuel : Nat) (fns : List (String × FuncDef))
    (stack : List ScopeView) (isAnd : Bool) (operands : List Expr) :
    evalExpr (fuel + 1) fns stack (.boolOp isAnd operands)
      = .error (.typeError "Unsupported expression type: BoolOp") := rfl

/-- **C2**: the claim (and the spec) say that for `x = f()` with `f`
user-defined, the pending-return marker is set, a call frame is pushed,
and when the callee's frame pops the stored return value is applied to
`x` strictly before the caller's next node.  The code instead consumes
the marker on the very next `step`, while the CALLEE's frame is on top:
it writes the stale `self.return_value` into the callee's locals,
skips the callee's first statement, and never advances the caller past
the assignment.  For the program `def f(): return 5` ; `x = f()` the
engine state is exactly periodic with period two — the run never
terminates and the module binding of `x` is never created. -/
theorem c2_pending_return_marker_bug :
    (stepCore 32 (stepCore 32 c2init) = c2init) ∧
    (∀ n, lookupChain (viewStack ((stepCore 32)^[n] c2init).callStack) "x" = Option.none ∧
          ((stepCore 32)^[n] c2init).isRunning = true) := by
  have h2 : stepCore 32 (stepCore 32 c2init) = c2init := by rfl
  refine ⟨h2, ?_⟩
  have hcyc : ∀ n, (stepCore 32)^[n] c2init = c2init ∨
      (stepCore 32)^[n] c2init = stepCore 32 c2init := by
    intro n
    induction n with
    | zero => exact Or.inl rfl
    | succ m ih =>
      rw [Function.iterate_succ_apply']
      cases ih with
      | inl h => rw [h]; exact Or.inr rfl
      | inr h => rw [h, h2]; exact Or.inl rfl
  intro n
  cases hcyc n with
  | inl h => rw [h]; exact ⟨rfl, rfl⟩
  | inr h => rw [h]; exact ⟨rfl, rfl⟩

/-- **C3**: dispatching a while node whose loop state exists re-evaluates
the test; if it is truthy the stored body followed by the while node
itself is spliced immediately after the pointer, the iteration counter
is advanced and the pointer moves into the body; if it is falsy the
loop state is discarded, the instruction list is unchanged and the
pointer advances past the node.  Locals, the rest of the stack and the
engine flags are untouched either way. -/
theorem c3_while_dispatch (fuel : Nat) (fns : List (String × FuncDef)) (fr : Frame)
    (rest : List Frame) (rv : Value) (lid : Nat) (test : Expr) (body : List Stmt)
    (ln : Nat) (iter : Nat) (wc : Bool) (bodyS : List Stmt) (v : Value)
    (hnode : fr.nodes.get? fr.ip = some (.whileStmt lid test body ln))
    (hstate : lookupLoopState fr.loopStates lid = some (.whileState iter wc bodyS))
    (hnodup : (fr.loopStates.map Prod.fst).Nodup)
    (heval : evalExpr fuel fns (viewStack (fr :: rest)) test = .ok v) :
    ∃ fr' evs,
      nextStep fuel ⟨true, false, fns, fr :: rest, rv, Option.none⟩
        = (⟨true, false, fns, fr' :: rest, rv, Option.none⟩, evs, Option.none) ∧
      fr'.ip = fr.ip + 1 ∧ fr'.locals = fr.locals ∧ fr'.name = fr.name ∧
      (truthy v = true →
        fr'.nodes = fr.nodes.take (fr.ip + 1) ++ bodyS ++
          Stmt.whileStmt lid test body ln :: fr.nodes.drop (fr.ip + 1) ∧
        lookupLoopState fr'.loopStates lid = some (.whileState (iter + 1) true bodyS)) ∧
      (truthy v = false →
        fr'.nodes = fr.nodes ∧
        lookupLoopState fr'.loopStates lid = Option.none) := by
  have hlt : fr.ip < fr.nodes.length := (List.get?_eq_some.mp hnode).1
  rw [nextStep_dispatch fuel fns fr rest rv _ hnode]
  have hfr1 : setLoopState fr.loopStates lid (.whileState iter wc bodyS) = fr.loopStates :=
    setLoopState_self _ _ _ hstate
  simp only [viewStack, List.map_cons, Frame.view] at heval
  unfold dispatch
  simp only [hstate, hfr1, viewStack, List.map_cons, Frame.view, heval]
  cases htv : truthy v with
  | true =>
    simp only [htv, if_true]
    refine ⟨_, _, rfl, rfl, rfl, rfl, ?_, ?_⟩
    · intro _
      exact ⟨spliceLoop_eq fr.nodes fr.ip bodyS _ hlt, lookupLoopState_set _ _ _⟩
    · intro ht
      exact Bool.noConfusion ht
  | false =>
    simp only [htv, if_false]
    refine ⟨_, _, rfl, rfl, rfl, rfl, ?_, ?_⟩
    · intro ht
      exact Bool.noConfusion ht
    · intro _
      exact ⟨rfl, lookupLoopState_remove _ _ hnodup⟩

/-- **C3**, witness: one dispatch of `while i < 2: i += 1` with `i = 0`
and an existing loop state at iteration 1: the test re-evaluates to
true, the body plus the while node are spliced after the pointer, and
the counter reaches 2. -/
theorem c3_while_dispatch_witness :
    ∃ fr' evs,
      nextStep 8 ⟨true, false, [], [frW], Value.none, Option.none⟩
        = (⟨true, false, [], [fr'], Value.none, Option.none⟩, evs, Option.none) ∧
      fr'.ip = frW.ip + 1 ∧
      fr'.nodes = frW.nodes.take (frW.ip + 1) ++ bodyW ++
        Stmt.whileStmt 7 testW bodyW 2 :: frW.nodes.drop (frW.ip + 1) ∧
      lookupLoopState fr'.loopStates 7 = some (.whileState 2 true bodyW) := by
  obtain ⟨fr', evs, heq, hip, _, _, htrue, _⟩ :=
    c3_while_dispatch 8 [] frW [] Value.none 7 testW bodyW 2 1 true bodyW (Value.bool true)
      rfl rfl (by simp [frW]) rfl
  obtain ⟨hnodes, hls⟩ := htrue rfl
  exact ⟨fr', evs, heq, hip, hnodes, hls⟩

/-- **C4**: (1) dispatching a for node whose loop state still holds
items pulls the next item, binds it to the loop target in the
ENCLOSING (top) frame — also emitting the variable-update event — and
splices the stored body plus the for node after the pointer; no
hypothesis about the iterable expression is needed, so the dispatch
succeeds even when re-evaluating it would now fail: the iterable was
evaluated exactly once, on first encounter.  (2) On exhaustion the
loop state is discarded, bindings and instruction list are unchanged
and the pointer advances past the node.  (3) On first encounter the
iterable is evaluated and materialized, and the first item is bound
in the same dispatch.  (4) Driving `for i in [10, 20, 30]: y = i` to
completion leaves the module binding of `i` at 30, the last iterated
value. -/
theorem c4_for_dispatch :
    (∀ (fuel : Nat) (fns : List (String × FuncDef)) (fr : Frame) (rest : List Frame)
        (rv : Value) (lid : Nat) (tgt : String) (iterE : Expr) (body : List Stmt)
        (ln : Nat) (full : List Value) (iter : Nat) (tv0 : String) (wc : Bool)
        (bodyS : List Stmt) (item : Value) (restItems : List Value),
       fr.nodes.get? fr.ip = some (.forStmt lid tgt iterE body ln) →
       lookupLoopState fr.loopStates lid
         = some (.forState (item :: restItems) full iter tv0 wc bodyS) →
       ∃ fr' evs,
         nextStep fuel ⟨true, false, fns, fr :: rest, rv, Option.none⟩
           = (⟨true, false, fns, fr' :: rest, rv, Option.none⟩, evs, Option.none) ∧
         fr'.ip = fr.ip + 1 ∧
         fr'.locals = setLocal fr.locals tv0 item ∧
         fr'.nodes = fr.nodes.take (fr.ip + 1) ++ bodyS ++
           Stmt.forStmt lid tgt iterE body ln :: fr.nodes.drop (fr.ip + 1) ∧
         lookupLoopState fr'.loopStates lid
           = some (.forState restItems full (iter + 1) tv0 true bodyS) ∧
         Event.varUpdate fr.name tv0 item (widgetShape item) ∈ evs) ∧
    (∀ (fuel : Nat) (fns : List (String × FuncDef)) (fr : Frame) (rest : List Frame)
        (rv : Value) (lid : Nat) (tgt : String) (iterE : Expr) (body : List Stmt)
        (ln : Nat) (full : List Value) (iter : Nat) (tv0 : String) (wc : Bool)
        (bodyS : List Stmt),
       fr.nodes.get? fr.ip = some (.forStmt lid tgt iterE body ln) →
       lookupLoopState fr.loopStates lid = some (.forState [] full iter tv0 wc bodyS) →
       (fr.loopStates.map Prod.fst).Nodup →
       ∃ fr' evs,
         nextStep fuel ⟨true, false, fns, fr :: rest, rv, Option.none⟩
           = (⟨true, false, fns, fr' :: rest, rv, Option.none⟩, evs, Option.none) ∧
         fr'.ip = fr.ip + 1 ∧ fr'.locals = fr.locals ∧ fr'.nodes = fr.nodes ∧
         lookupLoopState fr'.loopStates lid = Option.none) ∧
    (∀ (fuel : Nat) (fns : List (String × FuncDef)) (fr : Frame) (rest : List Frame)
        (rv : Value) (lid : Nat) (tgt : String) (iterE : Expr) (body : List Stmt)
        (ln : Nat) (iv : Value) (item : Value) (restItems : List Value),
       fr.nodes.get? fr.ip = some (.forStmt lid tgt iterE body ln) →
       lookupLoopState fr.loopStates lid = Option.none →
       evalExpr fuel fns (viewStack (fr :: rest)) iterE = .ok iv →
       materialize iv = .ok (item :: restItems) →
       ∃ fr' evs,
         nextStep fuel ⟨true, false, fns, fr :: rest, rv, Option.none⟩
           = (⟨true, false, fns, fr' :: rest, rv, Option.none⟩, evs, Option.none) ∧
         fr'.ip = fr.ip + 1 ∧
         fr'.locals = setLocal fr.locals tgt item ∧
         fr'.nodes = fr.nodes.take (fr.ip + 1) ++ body ++
           Stmt.forStmt lid tgt iterE body ln :: fr.nodes.drop (fr.ip + 1) ∧
         lookupLoopState fr'.loopStates lid
           = some (.forState restItems (item :: restItems) 1 tgt true body)) ∧
    (((stepCore 16)^[9] c4init).callStack.map
        (fun fr => (fr.name, lookupLocal fr.locals "i", lookupLocal fr.locals "y"))
        = [("<module>", some (Value.int 30), some (Value.int 30))] ∧
     ((stepCore 16)^[9] c4init).isRunning = false) := by
  refine ⟨?_, ?_, ?_, by constructor <;> rfl⟩
  · intro fuel fns fr rest rv lid tgt iterE body ln full iter tv0 wc bodyS item restItems
      hnode hstate
    have hlt : fr.ip < fr.nodes.length := (List.get?_eq_some.mp hnode).1
    rw [nextStep_dispatch fuel fns fr rest rv _ hnode]
    unfold dispatch
    simp only [hstate]
    refine ⟨_, _, rfl, rfl, rfl, ?_, ?_, ?_⟩
    · exact spliceLoop_eq fr.nodes fr.ip bodyS _ hlt
    · exact lookupLoopState_set _ _ _
    · cases wc <;> simp
  · intro fuel fns fr rest rv lid tgt iterE body ln full iter tv0 wc bodyS hnode hstate hnd
    rw [nextStep_dispatch fuel fns fr rest rv _ hnode]
    unfold dispatch
    simp only [hstate]
    refine ⟨_, _, rfl, rfl, rfl, rfl, ?_⟩
    exact lookupLoopState_remove _ _ hnd
  · intro fuel fns fr rest rv lid tgt iterE body ln iv item restItems hnode hstate heval hmat
    have hlt : fr.ip < fr.nodes.length := (List.get?_eq_some.mp hnode).1
    rw [nextStep_dispatch fuel fns fr rest rv _ hnode]
    simp only [viewStack, List.map_cons, Frame.view] at heval
    unfold dispatch
    simp only [hstate, viewStack, List.map_cons, Frame.view, heval, hmat]
    refine ⟨_, _, rfl, rfl, rfl, ?_, ?_⟩
    · exact spliceLoop_eq fr.nodes fr.ip body _ hlt
    · exact lookupLoopState_set _ _ _

/-- **C4**, witness: a for node whose loop state holds one remaining
item (30) while its iterable expression (`gone`) is UNBOUND: the
dispatch still pulls 30, binds `i` in the enclosing frame (with the
variable-update event), advances and splices — the iterable is not
re-evaluated. -/
theorem c4_for_dispatch_witness :
    ∃ fr' evs,
      nextStep 8 ⟨true, false, [], [frF], Value.none, Option.none⟩
        = (⟨true, false, [], [fr'], Value.none, Option.none⟩, evs, Option.none) ∧
      fr'.ip = frF.ip + 1 ∧
      fr'.locals = setLocal frF.locals "i" (Value.int 30) ∧
      fr'.nodes = frF.nodes.take (frF.ip + 1) ++ bodyF ++
        Stmt.forStmt 9 "i" (.nameRef "gone") bodyF 1 :: frF.nodes.drop (frF.ip + 1) ∧
      lookupLoopState fr'.loopStates 9
        = some (.forState [] [Value.int 10, Value.int 20, Value.int 30] 3 "i" true bodyF) ∧
      Event.varUpdate frF.name "i" (Value.int 30) (widgetShape (Value.int 30)) ∈ evs := by
  obtain ⟨fr', evs, h1, h2, h3, h4, h5, h6⟩ :=
    c4_for_dispatch.1 8 [] frF [] Value.none 9 "i" (.nameRef "gone") bodyF 1
      [Value.int 10, Value.int 20, Value.int 30] 2 "i" true bodyF (Value.int 30) []
      rfl rfl
  exact ⟨fr', evs, h1, h2, h3, h4, h5, h6⟩

/-- **C5**, counterexample: with 51 frames named `factorial` already on
the stack (past the ceiling of 50), the synchronous executor
substitutes `None` for `factorial(1)` — NOT the pattern's base-case
value 1, which the same executor produces when the depth allows.  No
factorial/fibonacci/gcd/power heuristic exists anywhere in the code. -/
theorem c5_depth_counterexample :
    execFunc 5 [("factorial", factDef)] deepStack51 factDef [.int 1] = .ok Value.none ∧
    Value.none ≠ Value.int 1 ∧
    execFunc 64 [("factorial", factDef)] [⟨"<module>", []⟩] factDef [.int 1] = .ok (.int 1) :=
  ⟨rfl, fun h => Value.noConfusion h, rfl⟩

/-- **C5** (amended): for every synchronous (expression-context) call
whose callee name already occurs as a substring of more than
`MAX_RECURSION_DEPTH` (50) frame names, execution is not aborted — the
call immediately completes with the value `None`, for every function
and every argument list alike; there is no pattern-specific base-case
fallback. -/
theorem c5_depth_returns_none (fuel : Nat) (fns : List (String × FuncDef))
    (stack : List ScopeView) (fd : FuncDef) (args : List Value)
    (hdepth : maxRecursionDepth < countFramesMatching stack fd.name) :
    execFunc (fuel + 1) fns stack fd args = .ok Value.none := by
  unfold execFunc
  simp [hdepth]

/-- **C5**, witness: the depth-exceeded factorial call concretely
returns `None`. -/
theorem c5_depth_returns_none_witness :
    execFunc 6 [("factorial", factDef)] deepStack51 factDef [Value.int 1]
      = .ok Value.none :=
  c5_depth_returns_none 5 [("factorial", factDef)] deepStack51 factDef [Value.int 1]
    (by decide)

/-- **C6**: (1) name lookup walks the scope chain innermost-first and
the first binding wins: if every frame nearer the top lacks the name
and some frame binds it, evaluation of the name yields that binding;
(2) a name bound in no frame raises the undefined-name error; (3) in
the scenario `x = 1` ; `f(5)` with `def f(x): x = 2; x = 3`, after the
function's assignment has executed the callee frame holds `x = 3`
while the module frame still holds `x = 1`; and (4) after the run
finishes the module binding of `x` still reads 1. -/
theorem c6_scope_lookup :
    (∀ (fuel : Nat) (fns : List (String × FuncDef)) (s1 : List ScopeView) (fr : ScopeView)
        (s2 : List ScopeView) (id : String) (v : Value),
       (∀ f ∈ s1, lookupLocal f.locals id = Option.none) →
       lookupLocal fr.locals id = some v →
       evalExpr (fuel + 1) fns (s1 ++ fr :: s2) (.nameRef id) = .ok v) ∧
    (∀ (fuel : Nat) (fns : List (String × FuncDef)) (stack : List ScopeView) (id : String),
       (∀ f ∈ stack, lookupLocal f.locals id = Option.none) →
       evalExpr (fuel + 1) fns stack (.nameRef id) = .error (.nameError id)) ∧
    (((stepCore 32)^[3] c6init).callStack.map (fun fr => (fr.name, lookupLocal fr.locals "x"))
       = [("f", some (Value.int 3)), ("<module>", some (Value.int 1))]) ∧
    (((stepCore 32)^[5] c6init).isRunning = false ∧
     lookupChain (viewStack ((stepCore 32)^[5] c6init).callStack) "x" = some (Value.int 1)) := by
  refine ⟨?_, ?_, rfl, rfl, rfl⟩
  · intro fuel fns s1 fr s2 id v h1 h2
    show (match lookupChain (s1 ++ fr :: s2) id with
          | some w => Except.ok w
          | Option.none => Except.error (Err.nameError id)) = .ok v
    rw [lookupChain_append_none s1 (fr :: s2) id h1]
    simp [lookupChain, h2]
  · intro fuel fns stack id h
    show (match lookupChain stack id with
          | some w => Except.ok w
          | Option.none => Except.error (Err.nameError id)) = .error (.nameError id)
    rw [lookupChain_eq_none stack id h]

/-- **C6**, witness: with an inner frame lacking `x`, a middle frame
binding `x = 3` and the module frame binding `x = 1`, lookup returns 3
(the innermost binding wins); with no frame binding `x`, lookup raises
the NameError. -/
theorem c6_scope_lookup_witness :
    evalExpr 4 []
        ([⟨"g", [("y", Value.int 0)]⟩] ++
          ⟨"f", [("x", Value.int 3)]⟩ :: [⟨"<module>", [("x", Value.int 1)]⟩])
        (.nameRef "x") = .ok (Value.int 3) ∧
    evalExpr 4 [] [⟨"<module>", [("y", Value.int 1)]⟩] (.nameRef "x")
      = .error (.nameError "x") := by
  constructor
  · exact c6_scope_lookup.1 3 [] [⟨"g", [("y", Value.int 0)]⟩] ⟨"f", [("x", Value.int 3)]⟩
      [⟨"<module>", [("x", Value.int 1)]⟩] "x" (Value.int 3)
      (by intro f hf; rw [List.mem_singleton] at hf; subst hf; rfl) rfl
  · exact c6_scope_lookup.2.1 3 [] [⟨"<module>", [("y", Value.int 1)]⟩] "x"
      (by intro f hf; rw [List.mem_singleton] at hf; subst hf; rfl)

/-- **C7**: (1) whenever the dispatch of the current node raises an
error, that same `step` turns the run off and reports exactly that one
diagnostic; (2) once the run is off, every further `step` is a no-op
with no events and no diagnostics — the entire remaining run is
aborted with no per-statement recovery; (3) concretely, stepping
`print(x)` with `x` unassigned produces zero variable-display updates,
exactly one diagnostic (the NameError for `x`), and a stopped run. -/
theorem c7_error_aborts_run :
    (∀ (fuel : Nat) (fns : List (String × FuncDef)) (fr : Frame) (rest : List Frame)
        (rv : Value) (node : Stmt) (er : Err),
       fr.nodes.get? fr.ip = some node →
       (dispatch fuel ⟨true, false, fns, fr :: rest, rv, Option.none⟩ node).err = some er →
       (nextStep fuel ⟨true, false, fns, fr :: rest, rv, Option.none⟩).1.isRunning = false ∧
       (nextStep fuel ⟨true, false, fns, fr :: rest, rv, Option.none⟩).2.2 = some er) ∧
    (∀ (fuel : Nat) (c : Core), c.isRunning = false → nextStep fuel c = (c, [], Option.none)) ∧
    (countVarUpdates (runSteps 32 5 c7init).2.1 = 0 ∧
     (runSteps 32 5 c7init).2.2 = [Err.nameError "x"] ∧
     (runSteps 32 5 c7init).1.isRunning = false) := by
  refine ⟨?_, nextStep_not_running, rfl, rfl, rfl⟩
  intro fuel fns fr rest rv node er hnode herr
  rw [nextStep_dispatch fuel fns fr rest rv node hnode]
  simp [herr, finishCore]

/-- **C7**, witness: the `print(x)` dispatch errors, and the resulting
step reports the NameError and stops the run. -/
theorem c7_error_aborts_run_witness :
    (nextStep 32 c7init).1.isRunning = false ∧
    (nextStep 32 c7init).2.2 = some (Err.nameError "x") :=
  c7_error_aborts_run.1 32 []
    ⟨"<module>", [.exprStmt (.call "print" [.nameRef "x"]) 1], 0, [], [], false⟩
    [] Value.none (.exprStmt (.call "print" [.nameRef "x"]) 1) (Err.nameError "x") rfl rfl

/-- **C8**, counterexample: `stop` on a running state with a non-empty
call stack leaves the call stack exactly as it was — nothing is
discarded; and on an already-stopped state `stop` does nothing at all,
so it is not unconditional either. -/
theorem c8_stop_counterexample :
    (stop c8run).callStack = c8run.callStack ∧
    c8run.callStack ≠ [] ∧
    stop (finishCore c8run) = finishCore c8run :=
  ⟨rfl, fun h => List.noConfusion h, rfl⟩

/-- **C8** (amended): `stop` never touches the call stack, the function
registry, the stored return value or the pending-return marker; when a
run is active it clears the running and paused flags (and, host-side,
the timer and highlight), and when no run is active it does nothing.
The call stack and presentation state are discarded only by the next
`start`. -/
theorem c8_stop_flags_only (c : Core) :
    (stop c).callStack = c.callStack ∧ (stop c).functions = c.functions ∧
    (stop c).returnValue = c.returnValue ∧ (stop c).awaitingReturn = c.awaitingReturn ∧
    (c.isRunning = true → (stop c).isRunning = false ∧ (stop c).isPaused = false) ∧
    (c.isRunning = false → stop c = c) := by
  unfold stop
  cases h : c.isRunning <;> simp [h]

/-- **C8**, witness: stopping the concrete running state keeps its
stack and clears the running flag. -/
theorem c8_stop_flags_only_witness :
    (stop c8run).callStack = c8run.callStack ∧ (stop c8run).isRunning = false := by
  obtain ⟨h1, _, _, _, h5, _⟩ := c8_stop_flags_only c8run
  exact ⟨h1, (h5 rfl).1⟩

/-- **C9**, counterexample: the dict with keys `val`/`left`/`right`
matches the spec's key-overlap heuristic, yet `_update_variable`
renders it as key/value rows, not a tree — the effective
`_is_tree_structure` (the second definition, which overrides the
first) only recognizes the literal key `value`. -/
theorem c9_tree_counterexample :
    specResemblesTreeNode (dC9.map Prod.fst) = true ∧
    widgetShape (.dict dC9) = .dictRows ∧
    Shape.dictRows ≠ Shape.tree :=
  ⟨rfl, rfl, fun h => Shape.noConfusion h⟩

/-- **C9** (amended): a mapping value is presented as a tree diagram if
and only if its key set contains the key `value` AND at least one of
`left`, `right`, `children`; otherwise it is presented as key/value
rows (`val`, `data` and `key` are NOT recognized). -/
theorem c9_tree_iff_value_key (entries : List (Value × Value)) :
    widgetShape (.dict entries) = .tree ↔
      ((entries.map Prod.fst).contains (Value.str "value") &&
       ((entries.map Prod.fst).contains (Value.str "left") ||
        (entries.map Prod.fst).contains (Value.str "right") ||
        (entries.map Prod.fst).contains (Value.str "children"))) = true := by
  simp only [widgetShape, isTreeStructure]
  by_cases hv : ((entries.map Prod.fst).contains (Value.str "value")) = true
  · by_cases hlrc : ((entries.map Prod.fst).contains (Value.str "left") ||
        (entries.map Prod.fst).contains (Value.str "right") ||
        (entries.map Prod.fst).contains (Value.str "children")) = true
    · simp [hv, hlrc]
    · simp only [Bool.not_eq_true] at hlrc
      simp [hv, hlrc]
  · simp only [Bool.not_eq_true] at hv
    simp [hv]

/-- **C10**, counterexample: dispatching the augmented assignment
`a[0] += 1` (a non-name target) raises an AttributeError
(`node.target.id` on an `ast.Subscript`), which aborts the whole run;
the instruction pointer does NOT advance.  The claim's "changes no
binding, raises no error, the pointer simply advances" therefore
fails for augmented assignments. -/
theorem c10_augassign_counterexample :
    (nextStep 8 c10bad).1.isRunning = false ∧
    (nextStep 8 c10bad).2.2 = some Err.attributeError ∧
    (nextStep 8 c10bad).1.callStack.map Frame.ip = [0] :=
  ⟨rfl, rfl, rfl⟩

/-- **C10** (amended): for a PLAIN (non-augmented) assignment whose
targets are all non-names and whose right-hand side is not a direct
user-defined-function call, dispatch evaluates the right-hand side and
then does nothing with it: no binding changes, no event beyond the
line highlight, no error, and the pointer advances by one; if instead
the right-hand side fails to evaluate, the run aborts with that
error. -/
theorem c10_nonname_assign :
    (∀ (fuel : Nat) (fns : List (String × FuncDef)) (fr : Frame) (rest : List Frame)
        (rv : Value) (targets : List Target) (e : Expr) (ln : Nat) (v : Value),
       fr.nodes.get? fr.ip = some (.assign targets e ln) →
       (∀ t ∈ targets, ∀ id, t ≠ Target.name id) →
       isUserFnCall fns e = false →
       evalExpr fuel fns (viewStack (fr :: rest)) e = .ok v →
       nextStep fuel ⟨true, false, fns, fr :: rest, rv, Option.none⟩
         = (⟨true, false, fns, { fr with ip := fr.ip + 1 } :: rest, rv, Option.none⟩,
            [Event.highlight ln], Option.none)) ∧
    (∀ (fuel : Nat) (fns : List (String × FuncDef)) (fr : Frame) (rest : List Frame)
        (rv : Value) (targets : List Target) (e : Expr) (ln : Nat) (er : Err),
       fr.nodes.get? fr.ip = some (.assign targets e ln) →
       isUserFnCall fns e = false →
       evalExpr fuel fns (viewStack (fr :: rest)) e = .error er →
       (nextStep fuel ⟨true, false, fns, fr :: rest, rv, Option.none⟩).1.isRunning = false ∧
       (nextStep fuel ⟨true, false, fns, fr :: rest, rv, Option.none⟩).2.2 = some er) := by
  constructor
  · intro fuel fns fr rest rv targets e ln v hnode htgt hcall heval
    have hexec : executeAssignment fuel ⟨true, false, fns, fr :: rest, rv, Option.none⟩
        (.assign targets e ln)
        = .ok (⟨true, false, fns, fr :: rest, rv, Option.none⟩, ([] : List Event)) := by
      unfold executeAssignment
      simp only [viewStack, List.map_cons, Frame.view] at heval
      simp only [viewStack, List.map_cons, Frame.view, heval]
      exact congrArg Except.ok
        (assign_fold_skip v targets (⟨true, false, fns, fr :: rest, rv, Option.none⟩, []) htgt)
    rw [nextStep_dispatch fuel fns fr rest rv _ hnode]
    unfold dispatch
    simp only [hcall, Bool.false_eq_true, if_false, hexec]
    rfl
  · intro fuel fns fr rest rv targets e ln er hnode hcall heval
    have hexec : executeAssignment fuel ⟨true, false, fns, fr :: rest, rv, Option.none⟩
        (.assign targets e ln) = .error er := by
      unfold executeAssignment
      simp only [viewStack, List.map_cons, Frame.view] at heval
      simp only [viewStack, List.map_cons, Frame.view, heval]
      rfl
    rw [nextStep_dispatch fuel fns fr rest rv _ hnode]
    unfold dispatch
    simp only [hcall, Bool.false_eq_true, if_false, hexec]
    constructor
    · rfl
    · first
      | rfl
      | trivial

/-- **C10**, witness: dispatching `a[0] = 3` evaluates the constant,
changes no binding, raises no error, and advances the pointer. -/
theorem c10_nonname_assign_witness :
    nextStep 8 c10plain
      = (⟨true, false, [],
          [⟨"<module>", [.assign [.subscript] (.const (.int 3)) 1], 1,
            [("a", .list [.int 1, .int 2])], [], false⟩],
          Value.none, Option.none⟩,
         [Event.highlight 1], Option.none) :=
  c10_nonname_assign.1 8 []
    ⟨"<module>", [.assign [.subscript] (.const (.int 3)) 1], 0,
      [("a", .list [.int 1, .int 2])], [], false⟩
    [] Value.none [.subscript] (.const (.int 3)) 1 (Value.int 3) rfl
    (by intro t ht id
        rw [List.mem_singleton] at ht
        subst ht
        exact fun hh => Target.noConfusion hh)
    rfl rfl
